import Mathlib

/-!
Shallow embedding of webcsv (`main.go`): schema resolution, CSV import,
HTTP query translation and result projection, together with executable
models of the relevant behavior of the external collaborators the code
drives (the SQLite store, `encoding/csv`, `strconv.ParseFloat`,
`unicode/utf8`, `strings`).  Pure functions of the source become Lean
functions; the fatal `log.Fatal*` exits and the index-out-of-range
panics become explicit outcome constructors.
-/

/-- ASCII alphanumeric test: the character class `[a-zA-Z0-9]` of the
regular expression compiled in `processCSV` (`main.go` line 158). -/
def isAsciiAlnum (c : Char) : Bool :=
  (97 ≤ c.toNat && c.toNat ≤ 122) || (65 ≤ c.toNat && c.toNat ≤ 90) ||
    (48 ≤ c.toNat && c.toNat ≤ 57)

/-- A lowercase ASCII letter or an ASCII digit. -/
def isLowerAlnum (c : Char) : Bool :=
  (97 ≤ c.toNat && c.toNat ≤ 122) || (48 ≤ c.toNat && c.toNat ≤ 57)

/-- ASCII lower-casing of one character.  Models `strings.ToLower` on
the strings it is actually applied to inside the sanitizer, which are
ASCII-only (every non-alphanumeric rune has already been removed). -/
def asciiLower (c : Char) : Char :=
  if 65 ≤ c.toNat && c.toNat ≤ 90 then Char.ofNat (c.toNat + 32) else c

/-- Embedding of the column-name sanitization in `processCSV`
(lines 158-162): `reg.ReplaceAllString(tok, "")` for
`reg = [^a-zA-Z0-9]+` (which deletes every rune outside the class),
followed by `strings.ToLower`. -/
def sanitize (s : String) : String :=
  ⟨(s.data.filter isAsciiAlnum).map asciiLower⟩

/-- Remove the literal `pre` from the front of `l`; `none` when `l`
does not start with `pre`. -/
def dropLit : List Char → List Char → Option (List Char)
  | [], l => some l
  | _ :: _, [] => none
  | p :: ps, c :: cs => if c = p then dropLit ps cs else none

/-- Split `l` around the FIRST occurrence of the literal `sep`,
returning the pieces before and after it; `none` when `sep` does not
occur.  (`sep` is never empty in this development.) -/
def breakOnLit (sep : List Char) : List Char → Option (List Char × List Char)
  | [] => none
  | c :: cs =>
    match dropLit sep (c :: cs) with
    | some rest => some ([], rest)
    | none =>
      match breakOnLit sep cs with
      | some p => some (c :: p.1, p.2)
      | none => none

/-- Fuel-driven splitter around every non-overlapping occurrence of
`sep`, left to right; with enough fuel this is exactly Go's
`strings.Split` for a non-empty separator. -/
def splitLitF (sep : List Char) : Nat → List Char → List (List Char)
  | 0, l => [l]
  | fuel + 1, l =>
    match breakOnLit sep l with
    | none => [l]
    | some p => p.1 :: splitLitF sep fuel p.2

/-- Model of `strings.Split` for the non-empty separators the program
uses (the one-rune delimiter string and `","`). -/
def goSplit (s sep : String) : List String :=
  (splitLitF sep.data (s.data.length + 1) s.data).map (fun l => (⟨l⟩ : String))

/-- Embedding of `trySplit` (`main.go` lines 39-46): call
`strings.Split` for each separator in order and return the first result
with more than one piece, else the one-piece split. -/
def trySplit (str : String) : List String → List String
  | [] => [str]
  | sep :: seps =>
    let s := goSplit str sep
    if s.length ≠ 1 then s else trySplit str seps

/-- Model of the delimiter check in `parseEnvironment` (lines 72-74):
`utf8.DecodeRuneInString` yields the FIRST rune of the string, or
`utf8.RuneError` (U+FFFD) when the string is empty or starts with an
invalid UTF-8 byte (a Lean `String` is always valid UTF-8, so only the
empty string — and a literal U+FFFD first character, which the equality
test cannot distinguish from the error — hit the fatal branch).
`none` models the `log.Fatalf` exit. -/
def decodeDelimiter (s : String) : Option Char :=
  match s.data with
  | [] => none
  | c :: _ => if c = Char.ofNat 0xFFFD then none else some c

/-- `parseEnvironment` lines 93-96: a non-empty `-header` value is split
with `trySplit`, trying the configured delimiter then a comma; an empty
value leaves `csvHeader` empty (`[]`). -/
def parseCustomHeader (delim : Char) (header : String) : List String :=
  if header = "" then [] else trySplit header [String.singleton delim, ","]

theorem dropLit_append (p r : List Char) : dropLit p (p ++ r) = some r := by
  induction p with
  | nil => rfl
  | cons c cs ih => simp [dropLit, ih]

theorem dropLit_length {p l r : List Char} (h : dropLit p l = some r) :
    r.length + p.length = l.length := by
  induction p generalizing l with
  | nil => simp [dropLit] at h; simp [h]
  | cons c cs ih =>
    match l with
    | [] => simp [dropLit] at h
    | x :: xs =>
      simp [dropLit] at h
      obtain ⟨-, h2⟩ := h
      have := ih h2
      simp [List.length_cons]
      omega

/-- The column-definition list built by the CREATE TABLE loop in
`processCSV` (lines 159-168): each sanitized name is followed by
`" text, "`, the last one by `" text);"`. -/
def createBody : List String → String
  | [] => ""
  | [n] => n ++ " text);"
  | n :: ns => n ++ " text, " ++ createBody ns

/-- Embedding of the CREATE TABLE construction in `processCSV`
(lines 158-168).  The loop reads `csvHeader[i]` for every
`i < csvFieldCount` with no bounds check, so it panics (index out of
range) as soon as the field count exceeds the number of header tokens;
`none` models that panic.  Otherwise the result is the literal DDL
string handed to `db.Exec`. -/
def buildCreateQuery (header : List String) (fieldCount : Nat) : Option String :=
  if fieldCount ≤ header.length then
    some ("create table csv (" ++ createBody ((header.take fieldCount).map sanitize))
  else
    none

/-- How SQLite reads one `<name> text` item of the emitted column list:
the identifier before the space is the column name; when the sanitized
name is empty the item is just ` text` and SQLite reads the word `text`
itself as the column name (with no declared type). -/
def colOf (n : List Char) : List Char :=
  if n = [] then "text".data else n

/-- Fuel-driven parser for the column list of the CREATE TABLE
statements the program can emit (`name text, ..., name text);`),
modelling the SQLite parser on those statements.  The fuel argument
only forces termination; `parseCols` supplies enough for any input. -/
def parseColsF : Nat → List Char → Option (List (List Char))
  | 0, _ => none
  | fuel + 1, l =>
    let name := l.takeWhile isAsciiAlnum
    let rest := l.dropWhile isAsciiAlnum
    match dropLit (" text").data rest with
    | none => none
    | some r =>
      if r = (");").data then
        some [colOf name]
      else
        match dropLit (", ").data r with
        | none => none
        | some r2 => (parseColsF fuel r2).map (colOf name :: ·)

def parseCols (l : List Char) : Option (List (List Char)) :=
  parseColsF (l.length + 1) l

/-- Errors surfaced by the store model (the embedded SQLite). -/
inductive StoreErr : Type
  | duplicateColumn (name : String)
  | badStatement
  | noSuchColumn (name : String)
  | argCountMismatch
  deriving DecidableEq, Repr

/-- The materialized store: the `csv` table, its column names in
declaration order and its rows in insertion order (every cell is text,
exactly as the program stores it). -/
structure Table : Type where
  cols : List String
  rows : List (List String)
  deriving DecidableEq, Repr

/-- First element that occurs twice in a list, if any. -/
def firstDup : List (List Char) → Option (List Char)
  | [] => none
  | c :: cs => if c ∈ cs then some c else firstDup cs

/-- Model of SQLite executing a CREATE TABLE statement emitted by
`processCSV`: parse the column list, then reject duplicate column names
with a "duplicate column" error (SQLite validates this while executing
the DDL).  Statements outside the shape the program can emit are
rejected as malformed.  SQLite keyword restrictions on identifiers are
not modelled: sanitized names are plain alphanumeric identifiers. -/
def execCreateTable (q : String) : Except StoreErr Table :=
  match dropLit ("create table csv (").data q.data with
  | none => .error .badStatement
  | some body =>
    match parseCols body with
    | none => .error .badStatement
    | some cols =>
      match firstDup cols with
      | some d => .error (.duplicateColumn ⟨d⟩)
      | none => .ok ⟨cols.map (fun c => (⟨c⟩ : String)), []⟩

/-- Outcome of the import loop. -/
inductive ImportOutcome : Type
  | ok (rows : List (List String)) (count : Nat)
  | fatalErr
  | panicked
  deriving DecidableEq, Repr

/-- Embedding of the import loop of `processCSV` (lines 190-219)
together with the field-count check of the `encoding/csv` reader it
drives.  `expected` is the reader's `FieldsPerRecord` state: left at
its zero value it is fixed to the cell count of the first record read,
after which `reader.Read` returns `ErrFieldCount` for any record with a
different count — a non-EOF error the program turns into `log.Fatalln`
(`fatalErr`).  A surviving record has `line[i]` read for every
`i < fieldCount`, which panics when the record is shorter (`panicked`);
otherwise its first `fieldCount` cells are inserted.  The INSERT itself
always succeeds: the loop supplies exactly `fieldCount` text values for
the table's `fieldCount` columns. -/
def importLoop (fieldCount : Nat) : Option Nat → List (List String) → ImportOutcome
  | _, [] => .ok [] 0
  | expected, r :: rs =>
    let n := expected.getD r.length
    if r.length ≠ n then .fatalErr
    else if r.length < fieldCount then .panicked
    else
      match importLoop fieldCount (some n) rs with
      | .ok rows c => .ok (r.take fieldCount :: rows) (c + 1)
      | other => other

/-- Final outcome of `processCSV`. -/
inductive ProcResult : Type
  | ok (t : Table) (imported : Nat)
  | fatalErr
  | panicked
  deriving DecidableEq, Repr

/-- Embedding of `processCSV` (lines 107-222) at record level: resolve
the header (consuming the file's first record when `hasHeader` is set,
and discarding it when a custom header was supplied), resolve the field
count (`0` means auto-detect as the header length), build and execute
the CREATE TABLE DDL, then run the import loop.  `records` is the
sequence of records the `encoding/csv` reader yields from the file
(quoting and delimiters already applied).  The `csvIndicies` loop is
not modelled: it is empty unless the `-indicies` flag is set, which no
claim involves.  `resolveHeader` is the header-resolution step of
lines 133-149: when `hasHeader` is set one record is consumed from the
file (fatal when the file has none), fixing the reader's
`FieldsPerRecord`, and the consumed record becomes the header only when
no custom header was supplied. -/
def resolveHeader (hasHeader : Bool) (customHeader : List String)
    (records : List (List String)) :
    Option (List String × Option Nat × List (List String)) :=
  if hasHeader then
    match records with
    | [] => none
    | first :: rest =>
      some (if customHeader = [] then first else customHeader,
            some first.length, rest)
  else
    some (customHeader, none, records)

def processCSV (hasHeader : Bool) (customHeader : List String)
    (fieldCount0 : Nat) (records : List (List String)) : ProcResult :=
  match resolveHeader hasHeader customHeader records with
  | none => .fatalErr
  | some (header, expected, rest) =>
    let fc := if fieldCount0 = 0 then header.length else fieldCount0
    match buildCreateQuery header fc with
    | none => .panicked
    | some q =>
      match execCreateTable q with
      | .error _ => .fatalErr
      | .ok t =>
        match importLoop fc expected rest with
        | .ok rows c => .ok ⟨t.cols, rows⟩ c
        | .fatalErr => .fatalErr
        | .panicked => .panicked

/-- The (key, value) pairs the handler's nested loop visits: for each
parameter key, one pair per value, values in transport order. -/
def clauseList (params : List (String × List String)) : List (String × String) :=
  params.flatMap (fun kv => kv.2.map (fun v => (kv.1, v)))

/-- Embedding of the query construction in `handleRequest` (lines
227-235): start from `SELECT * FROM csv WHERE `, append `key=? AND `
and one positional argument for every value of every key, then slice
the last 5 bytes off the string (`query[0 : len(query)-5]`).  Go's
`range` over the URL parameter map visits keys in unspecified order;
`params` is the key/values sequence in one such order (every claim
below uses at most one key, where the order is immaterial).  The last
5 bytes of the built string are always ASCII (` AND ` or `HERE `), so
the byte-level slice agrees with this character-level `take`. -/
def buildSelectQuery (params : List (String × List String)) :
    List Char × List String :=
  let pairs := clauseList params
  let q := "SELECT * FROM csv WHERE ".data ++
    (pairs.map (fun kv => kv.1.data ++ "=? AND ".data)).flatten
  (q.take (q.length - 5), pairs.map (·.2))

/-- Characters SQLite accepts in the unquoted identifiers relevant
here. -/
def isSqlIdent (c : Char) : Bool :=
  isAsciiAlnum c || c = '_'

/-- The SELECT statement shapes the handler can emit. -/
inductive SqlQuery : Type
  | scanAll
  | whereEq (conds : List String)
  deriving DecidableEq, Repr

/-- Fuel-driven parser for the WHERE clauses the handler emits:
`col=?` conjuncts joined by ` AND `.  The fuel argument only forces
termination; `parseConds` supplies enough for any input. -/
def parseCondsF : Nat → List Char → Option (List (List Char))
  | 0, _ => none
  | fuel + 1, l =>
    let name := l.takeWhile isSqlIdent
    let rest := l.dropWhile isSqlIdent
    if name = [] then none
    else
      match dropLit ("=?").data rest with
      | none => none
      | some r =>
        if r = [] then some [name]
        else
          match dropLit (" AND ").data r with
          | none => none
          | some r2 => (parseCondsF fuel r2).map (name :: ·)

def parseConds (l : List Char) : Option (List (List Char)) :=
  parseCondsF (l.length + 1) l

/-- Model of the SQLite parser on the SELECT statements the handler can
emit.  The zero-parameter request produces `SELECT * FROM csv W`, which
is a VALID statement: `W` parses as a table alias for `csv`, so the
statement is an unfiltered scan.  Statements outside these shapes are
rejected as malformed. -/
def parseSelect (q : List Char) : Option SqlQuery :=
  match dropLit ("SELECT * FROM csv").data q with
  | none => none
  | some rest =>
    if rest = [] then some .scanAll
    else
      match dropLit (" WHERE ").data rest with
      | some body => (parseConds body).map (fun cs => .whereEq (cs.map (⟨·⟩)))
      | none =>
        match dropLit (" ").data rest with
        | some al => if al ≠ [] && al.all isSqlIdent then some .scanAll else none
        | none => none

/-- Case-insensitive (ASCII) identifier equality: SQLite resolves
unquoted column references case-insensitively. -/
def identEq (a b : String) : Bool :=
  a.data.map asciiLower = b.data.map asciiLower

def resolveCol (cols : List String) (c : String) : Option Nat :=
  cols.findIdx? (fun col => identEq col c)

/-- Value of row `r` in column index `i` (rows inserted by the program
have exactly one cell per column). -/
def cellAt (r : List String) (i : Nat) : String := (r.get? i).getD ""

/-- Model of SQLite executing a SELECT the handler emits (`db.Query`):
parse the statement, resolve every condition column against the table
(error: no such column), demand exactly one bound argument per
placeholder, and keep the rows satisfying the conjunction of the
equality conditions; a scan keeps every row.  Result: the column names
and the matching rows, in insertion order. -/
def execSelect (t : Table) (q : List Char) (args : List String) :
    Except StoreErr (List String × List (List String)) :=
  match parseSelect q with
  | none => .error .badStatement
  | some .scanAll =>
    if args.length = 0 then .ok (t.cols, t.rows) else .error .argCountMismatch
  | some (.whereEq conds) =>
    match conds.find? (fun c => (resolveCol t.cols c).isNone) with
    | some c => .error (.noSuchColumn c)
    | none =>
      if args.length ≠ conds.length then .error .argCountMismatch
      else
        let idxs := conds.map (fun c => (resolveCol t.cols c).getD 0)
        .ok (t.cols,
          t.rows.filter (fun r => (idxs.zip args).all (fun p => cellAt r p.1 = p.2)))

/-- Values `strconv.ParseFloat` can return together with a nil error:
a finite number (kept as its exact decimal/hexadecimal value — rounding
to the nearest double is abstracted away, no claim compares a rounded
value), an infinity (the literal `inf`/`infinity` spellings), or NaN. -/
inductive GoFloat : Type
  | finite (q : ℚ)
  | posInf
  | negInf
  | nan
  deriving DecidableEq

def isDigitC (c : Char) : Bool := 48 ≤ c.toNat && c.toNat ≤ 57

def isHexDigitC (c : Char) : Bool :=
  isDigitC c || (97 ≤ c.toNat && c.toNat ≤ 102) || (65 ≤ c.toNat && c.toNat ≤ 70)

def decDigitVal (c : Char) : Nat := c.toNat - 48

def hexDigitVal (c : Char) : Nat :=
  if isDigitC c then c.toNat - 48
  else if 97 ≤ c.toNat then c.toNat - 87
  else c.toNat - 55

def digitsToNat (base : Nat) (val : Char → Nat) (ds : List Char) : Nat :=
  ds.foldl (fun acc c => acc * base + val c) 0

/-- Collect a run of digits in which a single underscore may stand
between two digits (and may lead the run, for the position straight
after a `0x` prefix — Go 1.13 literal syntax); stops before anything
else, leaving a stray underscore unconsumed. -/
def digRunAux (isD : Char → Bool) : List Char → List Char × List Char
  | '_' :: d :: r =>
    if isD d then
      let p := digRunAux isD r
      (d :: p.1, p.2)
    else ([], '_' :: d :: r)
  | d :: r =>
    if isD d then
      let p := digRunAux isD r
      (d :: p.1, p.2)
    else ([], d :: r)
  | [] => ([], [])

/-- A digit run that must begin with an actual digit. -/
def digRun (isD : Char → Bool) (l : List Char) : Option (List Char × List Char) :=
  match l with
  | c :: _ => if isD c then some (digRunAux isD l) else none
  | [] => none

/-- Parse an exponent part (`e[±]digits`, or `p[±]digits` for hex) and
require it to consume the whole rest; an empty rest means "no exponent"
(exponent 0). -/
def parseExpPart (expChars : List Char) (l : List Char) : Option Int :=
  match l with
  | [] => some 0
  | c :: r =>
    if c ∈ expChars then
      let sr : Bool × List Char := match r with
        | '+' :: r2 => (false, r2)
        | '-' :: r2 => (true, r2)
        | _ => (false, r)
      match digRun isDigitC sr.2 with
      | some (ds, rest) =>
        if rest = [] then
          some (if sr.1 then -(digitsToNat 10 decDigitVal ds : Int)
                else (digitsToNat 10 decDigitVal ds : Int))
        else none
      | none => none
    else none

/-- Parse a decimal mantissa `digits[.digits]` (at least one digit in
total), returning the digit value, the number of fraction digits, and
the rest of the input. -/
def parseDecMantissa (l : List Char) : Option ((Nat × Nat) × List Char) :=
  let p1 := match digRun isDigitC l with
    | some p => p
    | none => (([] : List Char), l)
  match p1.2 with
  | '.' :: r2 =>
    let p2 := match digRun isDigitC r2 with
      | some p => p
      | none => (([] : List Char), r2)
    if p1.1 = [] ∧ p2.1 = [] then none
    else some ((digitsToNat 10 decDigitVal (p1.1 ++ p2.1), p2.1.length), p2.2)
  | _ =>
    if p1.1 = [] then none
    else some ((digitsToNat 10 decDigitVal p1.1, 0), p1.2)

/-- The exact value `m * base ^ e` as a rational. -/
def ratOfPow (base : Nat) (m : Nat) (e : Int) : ℚ :=
  if 0 ≤ e then mkRat (m * base ^ e.toNat) 1 else mkRat m (base ^ (-e).toNat)

/-- Decimal form: mantissa then optional `e` exponent, whole string;
value `digits * 10 ^ (exponent - fracLen)`. -/
def parseDecAll (l : List Char) : Option ℚ :=
  match parseDecMantissa l with
  | none => none
  | some (m, r) =>
    (parseExpPart ['e', 'E'] r).map (fun e => ratOfPow 10 m.1 (e - m.2))

/-- Hexadecimal mantissa `hexdigits[.hexdigits]` (underscore may follow
the `0x` prefix), at least one digit in total; the second component is
the number of fraction digits. -/
def parseHexMantissa (l : List Char) : Option ((Nat × Nat) × List Char) :=
  let p1 := digRunAux isHexDigitC l
  match p1.2 with
  | '.' :: r2 =>
    let p2 := match digRun isHexDigitC r2 with
      | some p => p
      | none => (([] : List Char), r2)
    if p1.1 = [] ∧ p2.1 = [] then none
    else some ((digitsToNat 16 hexDigitVal (p1.1 ++ p2.1), p2.1.length), p2.2)
  | _ =>
    if p1.1 = [] then none
    else some ((digitsToNat 16 hexDigitVal p1.1, 0), p1.2)

/-- Hexadecimal form after the `0x` prefix: mantissa then a REQUIRED
binary exponent `p[±]digits`; value `digits * 2 ^ (exponent - 4*fracLen)`. -/
def parseHexTail (l : List Char) : Option ℚ :=
  match parseHexMantissa l with
  | none => none
  | some (m, r) =>
    match r with
    | [] => none
    | _ => (parseExpPart ['p', 'P'] r).map (fun e => ratOfPow 2 m.1 (e - 4 * m.2))

/-- Case-insensitive match of `l` against the lowercase literal `lit`. -/
def lowerIs (l : List Char) (lit : String) : Bool :=
  l.map asciiLower = lit.data

/-- Smallest magnitude at which `strconv.ParseFloat` reports overflow:
a value `v` with `|v| ≥ 2^1024 - 2^970` returns `±Inf` together with
`ErrRange`, i.e. a non-nil error. -/
def overflowNum : ℕ := ((2 ^ 97) ^ 5) ^ 2 * (2 ^ 54 - 1)

theorem overflowNum_eq : overflowNum = 2 ^ 1024 - 2 ^ 970 := by
  unfold overflowNum
  rw [← pow_mul, ← pow_mul]
  rw [Nat.mul_sub, Nat.mul_one, ← pow_add]

def overflows (q : ℚ) : Bool := overflowNum * q.den ≤ q.num.natAbs

/-- Model of `strconv.ParseFloat(s, 64)`, restricted to what the
program observes: whether `err == nil`, and the value on success
(`none` models a non-nil error).  Accepted syntax, per the Go
documentation and `strconv/atof.go`: optional sign; `inf`/`infinity`
(case-insensitive, sign allowed) and `nan` (case-insensitive, no
sign); decimal `digits[.digits][e[±]digits]`; hexadecimal
`0x hexdigits[.hexdigits] p[±]digits`; single underscores between
digits (or between `0x` and a digit); the entire string must be
consumed; a magnitude at or beyond the double-overflow threshold is
`ErrRange` (non-nil error). -/
def goParseFloat (s : String) : Option GoFloat :=
  let l := s.data
  if lowerIs l "nan" then some .nan
  else
    let sl : Bool × List Char := match l with
      | '+' :: r => (false, r)
      | '-' :: r => (true, r)
      | _ => (false, l)
    if lowerIs sl.2 "inf" || lowerIs sl.2 "infinity" then
      some (if sl.1 then .negInf else .posInf)
    else
      let mag : Option ℚ :=
        match sl.2 with
        | '0' :: x :: r =>
          if x = 'x' ∨ x = 'X' then parseHexTail r else parseDecAll sl.2
        | _ => parseDecAll sl.2
      match mag with
      | none => none
      | some m =>
        let v := if sl.1 then -m else m
        if overflows v then none else some (.finite v)

/-- `strings.Replace(v, ",", "", -1)`: delete every comma. -/
def stripCommas (s : String) : String := ⟨s.data.filter (· ≠ ',')⟩

/-- A field of a result record: Go `string` or `float64`. -/
inductive JsonVal : Type
  | str (s : String)
  | num (v : GoFloat)
  deriving DecidableEq

/-- Embedding of the per-cell coercion in `handleRequest` (lines
268-275): strip every comma from the scanned text, try
`strconv.ParseFloat`; on success the record value is the parsed number,
otherwise it is the ORIGINAL (unstripped) string. -/
def coerceCell (v : String) : JsonVal :=
  match goParseFloat (stripCommas v) with
  | some n => .num n
  | none => .str v

/-- Embedding of the row-to-record conversion in `handleRequest`
(lines 249-281): one entry per result column, keyed by the column name.
Entries are listed in column order (the iteration order of the Go map
at JSON-encoding time does not matter to any claim). -/
def projectRow (cols : List String) (r : List String) : List (String × JsonVal) :=
  List.zipWith (fun c v => (c, coerceCell v)) cols r

/-- A handler outcome: `c.JSON(400, err.Error())` when `db.Query`
fails, or `c.IndentedJSON(200, data)` with the projected records.  (The
500 row-scan path of lines 260-264 and 284-288 is unreachable in the
model: scanning text cells into Go strings cannot fail.) -/
inductive HandlerResult : Type
  | clientError (status : Nat) (e : StoreErr)
  | success (status : Nat) (records : List (List (String × JsonVal)))
  deriving DecidableEq

/-- Embedding of `handleRequest` (lines 224-293). -/
def handleRequest (t : Table) (params : List (String × List String)) : HandlerResult :=
  let qa := buildSelectQuery params
  match execSelect t qa.1 qa.2 with
  | .error e => .clientError 400 e
  | .ok (cols, rows) => .success 200 (rows.map (projectRow cols))

theorem charToNat_ofNat {n : Nat} (h : n < 55296) : (Char.ofNat n).toNat = n := by
  have hv : n.isValidChar := Or.inl h
  simp only [Char.ofNat, hv, dif_pos, Char.ofNatAux, Char.toNat]
  simp [UInt32.toNat]

theorem asciiLower_alnum {c : Char} (h : isAsciiAlnum c = true) :
    isLowerAlnum (asciiLower c) = true := by
  simp only [isAsciiAlnum, Bool.or_eq_true, Bool.and_eq_true, decide_eq_true_eq] at h
  simp only [asciiLower, isLowerAlnum, Bool.or_eq_true, Bool.and_eq_true,
    decide_eq_true_eq]
  by_cases hu : 65 ≤ c.toNat ∧ c.toNat ≤ 90
  · rw [if_pos hu, charToNat_ofNat (by omega)]
    omega
  · rw [if_neg hu]
    omega

theorem asciiLower_of_lower {c : Char} (h : isLowerAlnum c = true) :
    asciiLower c = c := by
  simp only [isLowerAlnum, Bool.or_eq_true, Bool.and_eq_true, decide_eq_true_eq] at h
  simp only [asciiLower, Bool.and_eq_true, decide_eq_true_eq]
  rw [if_neg (by omega)]

theorem lower_isAlnum {c : Char} (h : isLowerAlnum c = true) :
    isAsciiAlnum c = true := by
  simp only [isLowerAlnum, Bool.or_eq_true, Bool.and_eq_true, decide_eq_true_eq] at h
  simp only [isAsciiAlnum, Bool.or_eq_true, Bool.and_eq_true, decide_eq_true_eq]
  omega

theorem sanitize_data (s : String) :
    (sanitize s).data = (s.data.filter isAsciiAlnum).map asciiLower := rfl

theorem mem_sanitize_lower (s : String) :
    ∀ c ∈ (sanitize s).data, isLowerAlnum c = true := by
  intro c hc
  rw [sanitize_data] at hc
  obtain ⟨d, hd, rfl⟩ := List.mem_map.mp hc
  exact asciiLower_alnum (List.of_mem_filter hd)

/-- C7: for every raw header token `H` containing at least one
alphanumeric character, `sanitize H` is a non-empty string of lowercase
alphanumerics only, and `sanitize` is idempotent on `H`. -/
theorem sanitize_lower_and_idempotent (H : String)
    (h : ∃ c ∈ H.data, isAsciiAlnum c = true) :
    (∀ c ∈ (sanitize H).data, isLowerAlnum c = true) ∧
      sanitize H ≠ "" ∧ sanitize (sanitize H) = sanitize H := by
  refine ⟨mem_sanitize_lower H, ?_, ?_⟩
  · obtain ⟨c, hc, hal⟩ := h
    intro hempty
    have hdata : (sanitize H).data = [] := congrArg String.data hempty
    rw [sanitize_data] at hdata
    have hmem : c ∈ H.data.filter isAsciiAlnum := List.mem_filter.mpr ⟨hc, hal⟩
    rw [List.map_eq_nil_iff] at hdata
    rw [hdata] at hmem
    simp at hmem
  · have hall := mem_sanitize_lower H
    apply String.ext
    rw [sanitize_data]
    have hfil : (sanitize H).data.filter isAsciiAlnum = (sanitize H).data :=
      List.filter_eq_self.mpr (fun c hc => lower_isAlnum (hall c hc))
    rw [hfil]
    calc (sanitize H).data.map asciiLower
        = (sanitize H).data.map id :=
          List.map_congr_left (fun c hc => asciiLower_of_lower (hall c hc))
      _ = (sanitize H).data := List.map_id _

/-- Witness for C7 at the concrete header token `"Hello_World!"`. -/
theorem sanitize_lower_and_idempotent_witness :
    (∃ c ∈ ("Hello_World!" : String).data, isAsciiAlnum c = true) ∧
      ((∀ c ∈ (sanitize "Hello_World!").data, isLowerAlnum c = true) ∧
        sanitize "Hello_World!" ≠ "" ∧
        sanitize (sanitize "Hello_World!") = sanitize "Hello_World!") :=
  ⟨by decide, sanitize_lower_and_idempotent "Hello_World!" (by decide)⟩

/-- C3 counterexample: the two-character delimiter string `"ab"` is NOT
rejected at configuration time — `utf8.DecodeRuneInString` returns its
first rune `'a'` (not `RuneError`), so startup proceeds using `'a'` as
the delimiter even though the configured string has length 2. -/
theorem delimiter_two_chars_accepted_cx :
    ("ab" : String).length = 2 ∧ decodeDelimiter "ab" = some 'a' := by decide

/-- C3 amended: the check is `DecodeRuneInString(delim) == RuneError`
on the FIRST rune only, so (over valid UTF-8 input) startup fails
exactly when the delimiter string is empty or starts with the literal
replacement character U+FFFD; every other string — of any length — is
accepted, silently using just its first character. -/
theorem delimiter_first_rune_spec (s : String) :
    (decodeDelimiter s = none ↔
      s = "" ∨ s.data.head? = some (Char.ofNat 0xFFFD)) ∧
      ∀ c, s.data.head? = some c → c ≠ Char.ofNat 0xFFFD →
        decodeDelimiter s = some c := by
  obtain ⟨l⟩ := s
  constructor
  · cases l with
    | nil => simp [decodeDelimiter]
    | cons c cs =>
      by_cases hc : c = Char.ofNat 0xFFFD
      · simp [decodeDelimiter, hc, List.head?]
      · simp [decodeDelimiter, hc, List.head?, String.ext_iff]
  · intro c h hne
    cases l with
    | nil => simp [List.head?] at h
    | cons d ds =>
      simp [List.head?] at h
      subst h
      simp [decodeDelimiter, hne]

/-- Witness for C3 (amended) at the delimiter string `"ab"`. -/
theorem delimiter_first_rune_spec_witness :
    ("ab" : String).data.head? = some 'a' ∧ 'a' ≠ Char.ofNat 0xFFFD ∧
      decodeDelimiter "ab" = some 'a' :=
  ⟨by decide, by decide,
    (delimiter_first_rune_spec "ab").2 'a' (by decide) (by decide)⟩

/-- C10: the CREATE TABLE construction reads `csvHeader[i]` for every
`i < csvFieldCount` with no bounds check: it completes (yielding the
DDL string) exactly when `fieldCount ≤ len(csvHeader)`, and for every
larger field count the access is out of range (a panic, `none`/
`panicked`, never a reported configuration error).  In particular
`has-header=false` with no custom header (`csvHeader = []`) and a
positive explicit field count panics for every file. -/
theorem create_table_bounds_panic (header : List String) (fc : Nat) :
    ((buildCreateQuery header fc).isSome ↔ fc ≤ header.length) ∧
      (header.length < fc → buildCreateQuery header fc = none) ∧
      ∀ (fc0 : Nat) (recs : List (List String)), 0 < fc0 →
        processCSV false [] fc0 recs = .panicked := by
  refine ⟨?_, ?_, ?_⟩
  · unfold buildCreateQuery
    by_cases h : fc ≤ header.length <;> simp [h]
  · intro h
    unfold buildCreateQuery
    rw [if_neg (by omega)]
  · intro fc0 recs h0
    have hne : fc0 ≠ 0 := by omega
    simp [processCSV, resolveHeader, hne, buildCreateQuery]

/-- Witness for C10 at field count 3 and a 2-token header. -/
theorem create_table_bounds_panic_witness :
    (["a", "b"] : List String).length < 3 ∧
      buildCreateQuery ["a", "b"] 3 = none ∧
      (0 < 3 ∧ processCSV false [] 3 [["x", "y"]] = .panicked) :=
  ⟨by decide, (create_table_bounds_panic ["a", "b"] 3).2.1 (by decide),
    by decide, (create_table_bounds_panic [] 0).2.2 3 [["x", "y"]] (by decide)⟩

/-- C1 counterexample: with ZERO query parameters the handler slices
`SELECT * FROM csv WHERE ` down to `SELECT * FROM csv W`, which is
VALID SQL — `W` parses as a table alias for `csv` — so the request is
answered with status 200 and the FULL table, not with a 400-class
response. -/
theorem zero_params_full_dump_cx :
    handleRequest ⟨["a", "b"], [["1", "x"], ["2", "y"]]⟩ [] =
      .success 200
        [[("a", .num (.finite 1)), ("b", .str "x")],
         [("a", .num (.finite 2)), ("b", .str "y")]] := by decide

/-- C1 amended: a request with zero query parameters builds the sliced
statement `SELECT * FROM csv W` (valid SQL, `W` being a table alias),
so for EVERY table the handler executes an unfiltered scan and returns
status 200 with one record per stored row — never a 400-class
response. -/
theorem zero_params_unfiltered_scan (t : Table) :
    (buildSelectQuery []).1 = "SELECT * FROM csv W".data ∧
      handleRequest t [] = .success 200 (t.rows.map (projectRow t.cols)) :=
  ⟨by decide, rfl⟩

theorem splitLitF_ne_nil (sep : List Char) (fuel : Nat) (l : List Char) :
    splitLitF sep fuel l ≠ [] := by
  cases fuel with
  | zero => simp [splitLitF]
  | succ f =>
    simp only [splitLitF]
    cases breakOnLit sep l with
    | none => simp
    | some p => simp

theorem goSplit_length_one {str sep : String}
    (h : (goSplit str sep).length = 1) : goSplit str sep = [str] := by
  unfold goSplit at h ⊢
  rcases hb : breakOnLit sep.data str.data with _ | p
  · simp [splitLitF, hb]
  · exfalso
    simp only [splitLitF, hb, List.map_cons, List.length_cons,
      List.length_map] at h
    have h0 : (splitLitF sep.data str.data.length p.2).length = 0 := by omega
    exact splitLitF_ne_nil sep.data _ p.2 (List.length_eq_zero.mp h0)

/-- C8: a supplied custom header is split by trying the configured
delimiter first and falling back to comma exactly when the delimiter
produced no split (the first split yielding more than one token wins);
with `has-header` also true, one record of the file is still consumed
and discarded in favour of the custom header.  With custom header
`"a|b"` and delimiter `'|'` the resolved columns are exactly
`["a", "b"]` whatever the consumed first line contained, and the
emitted CREATE TABLE DDL declares exactly those columns. -/
theorem custom_header_overrides :
    parseCustomHeader '|' "a|b" = ["a", "b"] ∧
      (∀ str d : String, trySplit str [d, ","] =
        if (goSplit str d).length ≠ 1 then goSplit str d
        else goSplit str ",") ∧
      (∀ (first : List String) (rest : List (List String)),
        resolveHeader true ["a", "b"] (first :: rest) =
          some (["a", "b"], some first.length, rest)) ∧
      buildCreateQuery ["a", "b"] 2 = some "create table csv (a text, b text);" := by
  refine ⟨by decide, ?_, ?_, by decide⟩
  · intro str d
    by_cases h1 : (goSplit str d).length = 1
    · by_cases h2 : (goSplit str ",").length = 1
      · simp [trySplit, h1, h2, goSplit_length_one h2]
      · simp [trySplit, h1, h2]
    · simp [trySplit, h1]
  · intro first rest
    simp [resolveHeader]

theorem importLoop_uniform_ok (fc n : Nat) (recs : List (List String))
    (hu : ∀ r ∈ recs, r.length = n) (hfc : fc ≤ n) :
    importLoop fc (some n) recs = .ok (recs.map (·.take fc)) recs.length := by
  induction recs with
  | nil => rfl
  | cons r rs ih =>
    have hr : r.length = n := hu r (by simp)
    have hrest : ∀ x ∈ rs, x.length = n := fun x hx => hu x (by simp [hx])
    simp [importLoop, hr, Nat.not_lt.mpr hfc, ih hrest]

theorem importLoop_short_panics (fc n : Nat) (recs : List (List String))
    (hu : ∀ r ∈ recs, r.length = n) (hlt : n < fc) (hne : recs ≠ []) :
    importLoop fc (some n) recs = .panicked := by
  cases recs with
  | nil => exact absurd rfl hne
  | cons r rs =>
    have hr : r.length = n := hu r (by simp)
    simp [importLoop, hr, hlt]

theorem importLoop_mismatch_fatal (fc n : Nat) (recs : List (List String))
    (hfc : fc ≤ n) (hbad : ∃ r ∈ recs, r.length ≠ n) :
    importLoop fc (some n) recs = .fatalErr := by
  induction recs with
  | nil => simp at hbad
  | cons r rs ih =>
    by_cases hr : r.length = n
    · obtain ⟨b, hb, hbn⟩ := hbad
      have hbrs : b ∈ rs := by
        rcases List.mem_cons.mp hb with h | h
        · exact absurd (h ▸ hr) hbn
        · exact h
      simp [importLoop, hr, Nat.not_lt.mpr hfc, ih ⟨b, hbrs, hbn⟩]
    · simp [importLoop, hr]

/-- C4 counterexample: under the file header `["a", "b"]` (resolved
field count 2) the data row `["1", "2", "3"]` has MORE cells than the
field count, yet it is NOT truncated to its first two cells: the
`encoding/csv` reader fixed `FieldsPerRecord = 2` at the header record,
so `reader.Read` returns `ErrFieldCount` for this row and the import is
fatal (`log.Fatalln`) — no row is imported. -/
theorem long_row_fatal_cx :
    processCSV true [] 0 [["a", "b"], ["1", "2", "3"]] = .fatalErr ∧
      importLoop 2 (some 2) [["1", "2", "3"]] = .fatalErr := by decide

/-- C4 amended: `n` being the cell count the `encoding/csv` reader
fixed at the first record it read (the header record when
`has-header`), a data row is truncated to the first `fieldCount` cells
only when it passes the reader's check, i.e. has exactly `n` cells with
`fieldCount ≤ n` (extras beyond `fieldCount` are then ignored); a row
whose cell count differs from `n` makes the import fatal
(`ErrFieldCount`); rows with fewer cells than `fieldCount` (possible
only when `fieldCount > n`) panic with an index-out-of-range — missing
cells are never padded and nothing is imported. -/
theorem import_arity_spec (fc n : Nat) (recs : List (List String)) :
    ((∀ r ∈ recs, r.length = n) → fc ≤ n →
      importLoop fc (some n) recs = .ok (recs.map (·.take fc)) recs.length) ∧
      ((∀ r ∈ recs, r.length = n) → n < fc → recs ≠ [] →
        importLoop fc (some n) recs = .panicked) ∧
      (fc ≤ n → (∃ r ∈ recs, r.length ≠ n) →
        importLoop fc (some n) recs = .fatalErr) :=
  ⟨fun hu hfc => importLoop_uniform_ok fc n recs hu hfc,
    fun hu hlt hne => importLoop_short_panics fc n recs hu hlt hne,
    fun hfc hbad => importLoop_mismatch_fatal fc n recs hfc hbad⟩

/-- Witness for C4 (amended) on concrete rows: truncation of a 3-cell
row at field count 2 under reader count 3; panic on 2-cell rows at
field count 3; fatal `ErrFieldCount` on a 3-cell row at reader count
2. -/
theorem import_arity_spec_witness :
    importLoop 2 (some 3) [["1", "2", "3"]] = .ok [["1", "2"]] 1 ∧
      importLoop 3 (some 2) [["1", "2"]] = .panicked ∧
      importLoop 2 (some 2) [["1", "2", "3"]] = .fatalErr :=
  ⟨(import_arity_spec 2 3 [["1", "2", "3"]]).1 (by decide) (by decide),
    (import_arity_spec 3 2 [["1", "2"]]).2.1 (by decide) (by decide) (by decide),
    (import_arity_spec 2 2 [["1", "2", "3"]]).2.2 (by decide)
      ⟨["1", "2", "3"], by decide, by decide⟩⟩

theorem takeWhile_append_all {p : Char → Bool} {l1 l2 : List Char}
    (h : ∀ a ∈ l1, p a = true) :
    (l1 ++ l2).takeWhile p = l1 ++ l2.takeWhile p := by
  induction l1 with
  | nil => simp
  | cons c cs ih =>
    have hc : p c = true := h c (by simp)
    simp [List.takeWhile_cons, hc, ih (fun a ha => h a (by simp [ha]))]

theorem dropWhile_append_all {p : Char → Bool} {l1 l2 : List Char}
    (h : ∀ a ∈ l1, p a = true) :
    (l1 ++ l2).dropWhile p = l2.dropWhile p := by
  induction l1 with
  | nil => simp
  | cons c cs ih =>
    have hc : p c = true := h c (by simp)
    simp [List.dropWhile_cons, hc, ih (fun a ha => h a (by simp [ha]))]

/-- The WHERE-clause body the handler's loop builds for condition
columns `ks`, after the final ` AND ` has been sliced off. -/
def condsBody : List String → List Char
  | [] => []
  | [k] => k.data ++ ("=?").data
  | k :: ks => k.data ++ ("=? AND ").data ++ condsBody ks

theorem join_pairs_eq (ps : List (String × String)) (hne : ps ≠ []) :
    (ps.map (fun kv => kv.1.data ++ ("=? AND ").data)).flatten
      = condsBody (ps.map (·.1)) ++ (" AND ").data := by
  induction ps with
  | nil => exact absurd rfl hne
  | cons p ps ih =>
    cases ps with
    | nil =>
      show p.1.data ++ ("=? AND ").data ++ []
          = (p.1.data ++ ("=?").data) ++ (" AND ").data
      rw [List.append_nil, List.append_assoc]
      rfl
    | cons p2 ps2 =>
      show p.1.data ++ ("=? AND ").data ++ _ = _
      rw [ih (by simp)]
      show _ = (p.1.data ++ ("=? AND ").data ++ condsBody _) ++ (" AND ").data
      simp [List.append_assoc]

theorem buildSelectQuery_eq (params : List (String × List String))
    (hne : clauseList params ≠ []) :
    buildSelectQuery params =
      (("SELECT * FROM csv WHERE ").data ++
          condsBody ((clauseList params).map (·.1)),
        (clauseList params).map (·.2)) := by
  have h2 : (buildSelectQuery params).1 =
      (("SELECT * FROM csv WHERE ").data ++
        ((clauseList params).map
          (fun kv => kv.1.data ++ ("=? AND ").data)).flatten).take
        ((("SELECT * FROM csv WHERE ").data ++
          ((clauseList params).map
            (fun kv => kv.1.data ++ ("=? AND ").data)).flatten).length - 5) := rfl
  rw [join_pairs_eq (clauseList params) hne] at h2
  rw [show ("SELECT * FROM csv WHERE ").data ++
        (condsBody ((clauseList params).map (·.1)) ++ (" AND ").data)
      = (("SELECT * FROM csv WHERE ").data ++
          condsBody ((clauseList params).map (·.1))) ++ (" AND ").data
    from (List.append_assoc _ _ _).symm] at h2
  rw [List.length_append] at h2
  rw [show ((" AND ").data).length = 5 from rfl, Nat.add_sub_cancel,
    List.take_left] at h2
  exact Prod.ext h2 rfl

theorem takeWhile_not_head {p : Char → Bool} {c : Char} {l : List Char}
    (h : p c = false) : (c :: l).takeWhile p = [] := by
  simp [List.takeWhile_cons, h]

theorem dropWhile_not_head {p : Char → Bool} {c : Char} {l : List Char}
    (h : p c = false) : (c :: l).dropWhile p = c :: l := by
  simp [List.dropWhile_cons, h]

theorem parseCondsF_inv (ks : List String) (fuel : Nat)
    (hk : ∀ k ∈ ks, k.data ≠ [] ∧ ∀ c ∈ k.data, isSqlIdent c = true)
    (hne : ks ≠ []) (hfuel : (condsBody ks).length < fuel) :
    parseCondsF fuel (condsBody ks) = some (ks.map String.data) := by
  induction ks generalizing fuel with
  | nil => exact absurd rfl hne
  | cons k ks ih =>
    obtain ⟨hk1, hk2⟩ := hk k (by simp)
    cases fuel with
    | zero => omega
    | succ f =>
      cases ks with
      | nil =>
        simp only [condsBody] at hfuel ⊢
        simp only [parseCondsF]
        rw [takeWhile_append_all hk2, dropWhile_append_all hk2]
        rw [show (("=?").data.takeWhile isSqlIdent) = [] from by decide]
        rw [show (("=?").data.dropWhile isSqlIdent) = ("=?").data from by decide]
        rw [List.append_nil, if_neg hk1]
        rw [show dropLit ("=?").data ("=?").data = some [] from by decide]
        simp
      | cons k2 ks2 =>
        simp only [condsBody] at hfuel ⊢
        simp only [parseCondsF]
        rw [List.append_assoc]
        rw [takeWhile_append_all hk2, dropWhile_append_all hk2]
        rw [show ("=? AND ").data ++ condsBody (k2 :: ks2)
              = '=' :: (("? AND ").data ++ condsBody (k2 :: ks2)) from rfl]
        rw [takeWhile_not_head (by decide), dropWhile_not_head (by decide)]
        rw [List.append_nil, if_neg hk1]
        rw [show ('=' :: (("? AND ").data ++ condsBody (k2 :: ks2)))
              = ("=?").data ++ ((" AND ").data ++ condsBody (k2 :: ks2)) from rfl]
        rw [dropLit_append]
        have hne2 : (" AND ").data ++ condsBody (k2 :: ks2) ≠ [] := by
          intro h
          exact absurd (List.append_eq_nil.mp h).1 (by decide)
        have hflen : (condsBody (k2 :: ks2)).length < f := by
          have h7 : (("=? AND ").data).length = 7 := rfl
          simp only [List.length_append, h7] at hfuel
          omega
        have htail := ih f (fun x hx => hk x (by simp [hx])) (by simp) hflen
        simp [hne2, dropLit_append, dropLit, htail]

theorem parseSelect_where (ks : List String)
    (hk : ∀ k ∈ ks, k.data ≠ [] ∧ ∀ c ∈ k.data, isSqlIdent c = true)
    (hne : ks ≠ []) :
    parseSelect (("SELECT * FROM csv WHERE ").data ++ condsBody ks)
      = some (.whereEq ks) := by
  have hne2 : (" WHERE ").data ++ condsBody ks ≠ [] := by
    intro h
    exact absurd (List.append_eq_nil.mp h).1 (by decide)
  have hconds : parseCondsF ((condsBody ks).length + 1) (condsBody ks)
      = some (ks.map String.data) :=
    parseCondsF_inv ks _ hk hne (by omega)
  have hid : (ks.map String.data).map (fun c => (⟨c⟩ : String)) = ks := by
    rw [List.map_map]
    calc ks.map ((fun c => (⟨c⟩ : String)) ∘ String.data)
        = ks.map id := List.map_congr_left (fun k _ => rfl)
      _ = ks := List.map_id ks
  unfold parseSelect parseConds
  rw [show ("SELECT * FROM csv WHERE ").data ++ condsBody ks
        = ("SELECT * FROM csv").data ++ ((" WHERE ").data ++ condsBody ks)
      from rfl]
  simp [dropLit_append, dropLit, hne2, hconds, hid]

theorem identEq_self (a : String) : identEq a a = true := by
  simp [identEq]

theorem resolveCol_isSome {cols : List String} {k : String} (h : k ∈ cols) :
    (resolveCol cols k).isSome = true := by
  unfold resolveCol
  rw [List.findIdx?_isSome]
  exact List.any_eq_true.mpr ⟨k, h, identEq_self k⟩

/-- C5: a request whose single parameter key `k` (a column of the
table) carries two distinct values builds
`SELECT * FROM csv WHERE k=? AND k=?` — one AND'ed equality clause per
(key, value) pair against the SAME column, bound to `[v1, v2]` — so
against any table (in particular any non-empty one, with well-formed
column identifiers as `processCSV` creates them) the two clauses can
never both hold of one row: the handler returns 200 with the EMPTY
array, never an error and never a union of the per-value matches. -/
theorem repeated_key_empty_result (t : Table) (k v1 v2 : String)
    (hwf : ∀ c ∈ t.cols, c.data ≠ [] ∧ ∀ ch ∈ c.data, isSqlIdent ch = true)
    (hk : k ∈ t.cols) (hne : v1 ≠ v2) (_hrows : t.rows ≠ []) :
    buildSelectQuery [(k, [v1, v2])] =
        (("SELECT * FROM csv WHERE ").data ++ condsBody [k, k], [v1, v2]) ∧
      handleRequest t [(k, [v1, v2])] = .success 200 [] := by
  have hkw := hwf k hk
  have hbuild := buildSelectQuery_eq [(k, [v1, v2])] (by simp [clauseList])
  have hks : ((clauseList [(k, [v1, v2])]).map (·.1)) = [k, k] := rfl
  have hargs : ((clauseList [(k, [v1, v2])]).map (·.2)) = [v1, v2] := rfl
  rw [hks, hargs] at hbuild
  refine ⟨hbuild, ?_⟩
  have hparse := parseSelect_where [k, k]
    (by
      intro x hx
      rcases List.mem_cons.mp hx with h | h
      · exact h ▸ hkw
      · simp at h
        exact h ▸ hkw)
    (by simp)
  have hres : (resolveCol t.cols k).isNone = false := by
    obtain ⟨i, hi⟩ := Option.isSome_iff_exists.mp (resolveCol_isSome hk)
    rw [hi]
    rfl
  have hfind : List.find? (fun c => (resolveCol t.cols c).isNone) [k, k] = none := by
    simp [List.find?, hres]
  simp at hparse
  unfold handleRequest
  rw [hbuild]
  unfold execSelect
  simp [hparse, hfind]
  intro r hr h1 h2
  exact hne (h1.symm.trans h2)

/-- Witness for C5 on a concrete two-row store and the request
`?a=1&a=2`. -/
theorem repeated_key_empty_result_witness :
    (∀ c ∈ (Table.mk ["a", "b"] [["1", "2"], ["3", "4"]]).cols,
        c.data ≠ [] ∧ ∀ ch ∈ c.data, isSqlIdent ch = true) ∧
      "a" ∈ (Table.mk ["a", "b"] [["1", "2"], ["3", "4"]]).cols ∧
      ("1" : String) ≠ "2" ∧
      (Table.mk ["a", "b"] [["1", "2"], ["3", "4"]]).rows ≠ [] ∧
      handleRequest (Table.mk ["a", "b"] [["1", "2"], ["3", "4"]])
        [("a", ["1", "2"])] = .success 200 [] :=
  ⟨by decide, by decide, by decide, by decide,
    (repeated_key_empty_result (Table.mk ["a", "b"] [["1", "2"], ["3", "4"]])
      "a" "1" "2" (by decide) (by decide) (by decide) (by decide)).2⟩

/-- C6: for every result-row cell value the projector strips all commas
and attempts double-precision parsing; when parsing succeeds the record
value is the parsed number, and when it fails the record value is the
ORIGINAL, unstripped string (the comma-stripped intermediate is
discarded).  Concretely `"1,234"` becomes the number 1234 while
`"Smith, Jr."` is returned exactly as the string `"Smith, Jr."`, also
end-to-end through the handler. -/
theorem numeric_coercion_spec :
    coerceCell "1,234" = .num (.finite 1234) ∧
      coerceCell "Smith, Jr." = .str "Smith, Jr." ∧
      (∀ (v : String) (n : GoFloat),
        goParseFloat (stripCommas v) = some n → coerceCell v = .num n) ∧
      (∀ v : String,
        goParseFloat (stripCommas v) = none → coerceCell v = .str v) ∧
      handleRequest ⟨["amount", "name"], [["1,234", "Smith, Jr."]]⟩
          [("amount", ["1,234"])] =
        .success 200
          [[("amount", .num (.finite 1234)), ("name", .str "Smith, Jr.")]] :=
  ⟨by decide, by decide,
    fun v n h => by simp [coerceCell, h],
    fun v h => by simp [coerceCell, h],
    by decide⟩

/-- Witness for C6's two conditional conjuncts at `"1,234"` (parse
succeeds) and `"Smith, Jr."` (parse fails). -/
theorem numeric_coercion_spec_witness :
    (goParseFloat (stripCommas "1,234") = some (.finite 1234) ∧
        coerceCell "1,234" = .num (.finite 1234)) ∧
      goParseFloat (stripCommas "Smith, Jr.") = none ∧
        coerceCell "Smith, Jr." = .str "Smith, Jr." :=
  ⟨⟨by decide, numeric_coercion_spec.2.2.1 "1,234" (.finite 1234) (by decide)⟩,
    by decide, numeric_coercion_spec.2.2.2.1 "Smith, Jr." (by decide)⟩

/-- C9: importing `N` well-formed rows (exactly 2 cells each) under the
file header `["a", "b"]` with auto-detected field count 2 materializes
exactly those rows (import succeeds, nothing lost), and EVERY imported
row is retrievable through the HTTP query path by at least one
single-column equality filter whose value is that row's original
string cell value: filtering column `"a"` on the row's first cell
returns 200 with a record list containing that row's projected
record. -/

theorem import_query_roundtrip (rows : List (List String)) (i : Nat)
    (hlen : ∀ r ∈ rows, r.length = 2) (hi : i < rows.length) :
    processCSV true [] 0 (["a", "b"] :: rows) =
        .ok ⟨["a", "b"], rows⟩ rows.length ∧
      ∃ (col v : String) (recs : List (List (String × JsonVal))),
        handleRequest ⟨["a", "b"], rows⟩ [(col, [v])] = .success 200 recs ∧
          projectRow ["a", "b"] (rows.get ⟨i, hi⟩) ∈ recs := by
  constructor
  · have himp := importLoop_uniform_ok 2 2 rows hlen (le_refl 2)
    have htake : rows.map (·.take 2) = rows := by
      conv_rhs => rw [← List.map_id rows]
      refine List.map_congr_left (fun r hr => ?_)
      show r.take 2 = r
      rw [← hlen r hr]
      exact List.take_length r
    rw [htake] at himp
    have hddl : buildCreateQuery ["a", "b"] 2
        = some "create table csv (a text, b text);" := by decide
    have hexec : execCreateTable "create table csv (a text, b text);"
        = .ok ⟨["a", "b"], []⟩ := rfl
    unfold processCSV
    simp [resolveHeader, hddl, hexec, himp]
  · set r0 := rows.get ⟨i, hi⟩ with hr0
    have hbuild := buildSelectQuery_eq [("a", [cellAt r0 0])] (by simp [clauseList])
    have hks : ((clauseList [("a", [cellAt r0 0])]).map (·.1)) = ["a"] := rfl
    have hargs : ((clauseList [("a", [cellAt r0 0])]).map (·.2)) = [cellAt r0 0] := rfl
    rw [hks, hargs] at hbuild
    have hparse := parseSelect_where ["a"] (by decide) (by simp)
    have hfind : List.find?
        (fun c => (resolveCol ["a", "b"] c).isNone) ["a"] = none := by decide
    have hresa : resolveCol ["a", "b"] "a" = some 0 := by decide
    simp at hparse
    refine ⟨"a", cellAt r0 0,
      (rows.filter (fun r => decide (cellAt r 0 = cellAt r0 0))).map
        (projectRow ["a", "b"]), ?_, ?_⟩
    · unfold handleRequest
      rw [hbuild]
      unfold execSelect
      simp [hparse, hfind, hresa]
    · apply List.mem_map_of_mem
      apply List.mem_filter.mpr
      exact ⟨List.get_mem rows i hi, by simp⟩

/-- Witness for C9 at two concrete imported rows, retrieving the
second. -/
theorem import_query_roundtrip_witness :
    (∀ r ∈ [["1", "2"], ["3", "4"]], r.length = 2) ∧
      1 < ([["1", "2"], ["3", "4"]] : List (List String)).length ∧
      (processCSV true [] 0 [["a", "b"], ["1", "2"], ["3", "4"]] =
          .ok ⟨["a", "b"], [["1", "2"], ["3", "4"]]⟩ 2 ∧
        ∃ (col v : String) (recs : List (List (String × JsonVal))),
          handleRequest ⟨["a", "b"], [["1", "2"], ["3", "4"]]⟩ [(col, [v])]
              = .success 200 recs ∧
            projectRow ["a", "b"]
              ([["1", "2"], ["3", "4"]].get ⟨1, by decide⟩) ∈ recs) :=
  ⟨by decide, by decide,
    import_query_roundtrip [["1", "2"], ["3", "4"]] 1 (by decide) (by decide)⟩


theorem strData_append (a b : String) : (a ++ b).data = a.data ++ b.data := rfl

theorem parseColsF_inv (ns : List String) (fuel : Nat)
    (hn : ∀ n ∈ ns, ∀ c ∈ n.data, isAsciiAlnum c = true)
    (hne : ns ≠ []) (hfuel : (createBody ns).data.length < fuel) :
    parseColsF fuel (createBody ns).data
      = some (ns.map (fun n => colOf n.data)) := by
  induction ns generalizing fuel with
  | nil => exact absurd rfl hne
  | cons n ns ih =>
    have hn1 := hn n (by simp)
    cases fuel with
    | zero => omega
    | succ f =>
      cases ns with
      | nil =>
        simp only [createBody] at hfuel ⊢
        rw [strData_append]
        simp only [parseColsF]
        rw [takeWhile_append_all hn1, dropWhile_append_all hn1]
        rw [show ((" text);").data.takeWhile isAsciiAlnum) = [] from by decide]
        rw [show ((" text);").data.dropWhile isAsciiAlnum) = (" text);").data from by decide]
        rw [List.append_nil]
        rw [show dropLit ((" text").data) ((" text);").data) = some ((");").data) from by decide]
        simp
      | cons m ns2 =>
        simp only [createBody] at hfuel ⊢
        rw [strData_append, strData_append, List.append_assoc] at hfuel ⊢
        simp only [parseColsF]
        rw [takeWhile_append_all hn1, dropWhile_append_all hn1]
        rw [show (" text, ").data ++ (createBody (m :: ns2)).data
              = ' ' :: (("text, ").data ++ (createBody (m :: ns2)).data) from rfl]
        rw [takeWhile_not_head (by decide), dropWhile_not_head (by decide)]
        rw [List.append_nil]
        rw [show (' ' :: (("text, ").data ++ (createBody (m :: ns2)).data))
              = (" text").data ++ ((", ").data ++ (createBody (m :: ns2)).data)
            from rfl]
        rw [dropLit_append]
        have hne2 : (", ").data ++ (createBody (m :: ns2)).data ≠ (");").data := by
          intro h
          have := congrArg List.head? h
          simp at this
        have hflen : (createBody (m :: ns2)).data.length < f := by
          have h7 : ((" text, ").data).length = 7 := rfl
          simp only [List.length_append, h7] at hfuel
          omega
        have htail := ih f (fun x hx => hn x (by simp [hx])) (by simp) hflen
        simp [hne2, dropLit_append, dropLit, htail]

theorem firstDup_of_not_nodup {l : List (List Char)} (h : ¬ l.Nodup) :
    ∃ d, firstDup l = some d := by
  induction l with
  | nil => exact absurd List.nodup_nil h
  | cons c cs ih =>
    by_cases hc : c ∈ cs
    · exact ⟨c, by simp [firstDup, hc]⟩
    · have hcs : ¬ cs.Nodup := fun hn => h (List.nodup_cons.mpr ⟨hc, hn⟩)
      obtain ⟨d, hd⟩ := ih hcs
      exact ⟨d, by simp [firstDup, hc, hd]⟩

/-- C2 amended: when two header tokens at positions `i < j` (within the
field count) sanitize to the same column name, the DDL builder still
completes — no pre-execution validation exists — and table creation
fails with SQLite's "duplicate column" error raised by the STORE while
executing the CREATE TABLE statement, which `processCSV` turns into a
fatal exit. -/
theorem sanitize_collision_store_duplicate (header : List String) (fc i j : Nat)
    (hfc : fc ≤ header.length) (hij : i < j) (hj : j < fc)
    (hcol : sanitize (header.getD i "") = sanitize (header.getD j "")) :
    ∃ q name : String,
      buildCreateQuery header fc = some q ∧
        execCreateTable q = .error (.duplicateColumn name) := by
  have hil : i < header.length := by omega
  have hjl : j < header.length := by omega
  set ns := (header.take fc).map sanitize with hns
  have hlen : ns.length = fc := by
    rw [hns, List.length_map, List.length_take]
    omega
  have hnsne : ns ≠ [] := by
    intro h
    have := congrArg List.length h
    rw [hlen] at this
    simp at this
    omega
  have hchars : ∀ n ∈ ns, ∀ c ∈ n.data, isAsciiAlnum c = true := by
    intro n hn c hc
    rw [hns] at hn
    obtain ⟨x, hx, rfl⟩ := List.mem_map.mp hn
    exact lower_isAlnum (mem_sanitize_lower x c hc)
  -- the colliding positions in the parsed column list
  set cols := ns.map (fun n => colOf n.data) with hcols
  have hclen : cols.length = fc := by rw [hcols, List.length_map, hlen]
  have hget : ∀ m (hm1 : m < cols.length) (hm2 : m < header.length),
      cols.get ⟨m, hm1⟩ = colOf (sanitize (header.get ⟨m, hm2⟩)).data := by
    intro m hm1 hm2
    simp only [hcols, hns, List.get_eq_getElem, List.getElem_map,
      List.getElem_take]
  have hdup : ¬ cols.Nodup := by
    intro hn
    have hi' : i < cols.length := by omega
    have hj' : j < cols.length := by omega
    have heq : cols.get ⟨i, hi'⟩ = cols.get ⟨j, hj'⟩ := by
      rw [hget i hi' hil, hget j hj' hjl]
      have h1 : header.getD i "" = header.get ⟨i, hil⟩ := by
        simp [List.getD_eq_getElem?_getD, List.getElem?_eq_getElem hil,
          List.get_eq_getElem]
      have h2 : header.getD j "" = header.get ⟨j, hjl⟩ := by
        simp [List.getD_eq_getElem?_getD, List.getElem?_eq_getElem hjl,
          List.get_eq_getElem]
      rw [h1, h2] at hcol
      rw [hcol]
    have hfin := (List.Nodup.get_inj_iff hn).mp heq
    have := congrArg Fin.val hfin
    simp at this
    omega
  obtain ⟨d, hd⟩ := firstDup_of_not_nodup hdup
  have hparse : parseCols (createBody ns).data = some cols := by
    unfold parseCols
    rw [parseColsF_inv ns _ hchars hnsne (by omega)]
  refine ⟨"create table csv (" ++ createBody ns, ⟨d⟩, ?_, ?_⟩
  · unfold buildCreateQuery
    rw [if_pos hfc, hns]
  · unfold execCreateTable
    rw [strData_append, dropLit_append]
    simp [hparse, hd]

/-- C2 counterexample to the claim as stated: for the header
`["a!", "a?"]` both tokens sanitize to `"a"`, yet the collision is NOT
validated before DDL execution — the builder emits the colliding
statement `create table csv (a text, a text);` and hands it to the
store, and only the store's execution of that DDL raises the
duplicate-column error (making startup fatal). -/
theorem collision_unvalidated_cx :
    buildCreateQuery ["a!", "a?"] 2
        = some "create table csv (a text, a text);" ∧
      execCreateTable "create table csv (a text, a text);"
        = .error (.duplicateColumn "a") ∧
      processCSV true [] 0 [["a!", "a?"], ["1", "2"]] = .fatalErr :=
  ⟨by decide, rfl, by decide⟩

/-- Witness for C2 (amended) at the header `["a!", "a?"]`, positions 0
and 1. -/
theorem sanitize_collision_store_duplicate_witness :
    2 ≤ (["a!", "a?"] : List String).length ∧ 0 < 1 ∧ 1 < 2 ∧
      sanitize ((["a!", "a?"] : List String).getD 0 "")
          = sanitize ((["a!", "a?"] : List String).getD 1 "") ∧
      ∃ q name : String,
        buildCreateQuery ["a!", "a?"] 2 = some q ∧
          execCreateTable q = .error (.duplicateColumn name) :=
  ⟨by decide, by decide, by decide, by decide,
    sanitize_collision_store_duplicate ["a!", "a?"] 2 0 1 (by decide)
      (by decide) (by decide) (by decide)⟩
